import Mathlib

/-!
A shallow embedding of the `pyvalidator` core (`pyvalidator/core/validators.py`
and `pyvalidator/core/forms.py`) together with theorems checking the
natural-language specification against it.

Modelling conventions:
* Python dicts are ordered association lists (`List (String × _)`); assignment
  replaces the entry in place when the key is present and appends otherwise,
  which matches CPython's insertion-order semantics.
* Python runtime values that the fields handle are the inductive `Value`;
  machine floats are modelled as rationals (no claim depends on rounding).
* Exceptions are the inductive `PyErr`; fallible code returns `Except PyErr _`
  or a `_ × Option PyErr` pair when the mutated state survives the raise.
* Calendar dates and datetimes are abstract integer codes; the third-party
  `dateutil` parser is modelled at its interface as described by the spec.
-/

namespace PyValidator

/-- Lookup in a Python dict modelled as an ordered association list
(first, hence only, entry with the key). -/
def dictLookup {α : Type} : List (String × α) → String → Option α
  | [], _ => none
  | (k, v) :: rest, key => if k = key then some v else dictLookup rest key

/-- Python dict assignment `d[key] = v`: replace in place when present,
append at the end when absent. -/
def dictSet {α : Type} : List (String × α) → String → α → List (String × α)
  | [], key, v => [(key, v)]
  | (k, w) :: rest, key, v =>
    if k = key then (key, v) :: rest
    else (k, w) :: dictSet rest key v

/-- Python `a.update(b)`: fold dict assignment of every entry of `b` into `a`. -/
def dictUpdate {α : Type} (a b : List (String × α)) : List (String × α) :=
  b.foldl (fun acc p => dictSet acc p.1 p.2) a

/-- The keys of a dict, in order. -/
def dictKeys {α : Type} (d : List (String × α)) : List String :=
  d.map Prod.fst

/-- Exceptions thrown by the embedded code.  `conversionError` and
`validationError` model the classes of `pyvalidator.core.exceptions`
(that module is not under `src/`); per the spec and the repository tests,
`ConversionError` wraps the message of the underlying cause verbatim. -/
inductive PyErr : Type
  | valueError (msg : String)
  | typeError (msg : String)
  | keyError (key : String)
  | notImplementedError (msg : String)
  | conversionError (msg : String)
  | validationError (msg : String)
deriving DecidableEq, Repr

/-- The `str()` of an exception, as used when `ConversionError` wraps a cause. -/
def pyErrMsg : PyErr → String
  | .valueError m => m
  | .typeError m => m
  | .keyError k => k
  | .notImplementedError m => m
  | .conversionError m => m
  | .validationError m => m

/-- Python runtime values handled by the fields.  Floats are rationals;
dates and datetimes are abstract integer day / timestamp codes.
(`bool`, which CPython treats as a subtype of `int`, is not modelled:
no declared field or test of the repository uses it.) -/
inductive Value : Type
  | none
  | int (n : Int)
  | float (q : Rat)
  | str (s : String)
  | date (d : Int)
  | datetime (t : Int)
deriving DecidableEq, Repr

/-- The field kinds of `validators.py` that the claims exercise
(`IntField`, `FloatField`, `StringField`, `DateField`, `DateTimeField`). -/
inductive FieldKind : Type
  | intK
  | floatK
  | strK
  | dateK
  | datetimeK
deriving DecidableEq, Repr

/-- `isinstance(v, self.__field_type__)`.  A Python `datetime` is an instance
of `date`, so `dateK` accepts both. -/
def isinstanceOf (v : Value) (k : FieldKind) : Bool :=
  match k, v with
  | .intK, .int _ => true
  | .floatK, .float _ => true
  | .strK, .str _ => true
  | .dateK, .date _ => true
  | .dateK, .datetime _ => true
  | .datetimeK, .datetime _ => true
  | _, _ => false

/-- Python `str(v)` for the values that reach error messages.  Only the
`none`, `int` and `str` renderings are relied upon by any theorem; the
float/date renderings are abstract stand-ins for `repr`-style output. -/
def pyStr : Value → String
  | .none => "None"
  | .int n => toString n
  | .float q => toString q
  | .str s => s
  | .date d => "date:" ++ toString d
  | .datetime t => "datetime:" ++ toString t

/-- The `str()` of a Python type object, used in the type-mismatch message
(CPython quotes the type name; the quotes are elided here). -/
def kindTypeName : FieldKind → String
  | .intK => "<class int>"
  | .floatK => "<class float>"
  | .strK => "<class str>"
  | .dateK => "<class datetime.date>"
  | .datetimeK => "<class datetime.datetime>"

/-- The `int(...)` constructor (default conversion of `IntField`).
`int(float)` truncates toward zero; `int(str)` parses a decimal literal;
`int(None)` and `int(date)` raise `TypeError`.  CPython quotes the offending
literal and type in its messages; the quotes are elided here. -/
def intConstructor : Value → Except PyErr Value
  | .int n => .ok (.int n)
  | .float q => .ok (.int (if q ≥ 0 then q.floor else q.ceil))
  | .str s =>
    match s.toInt? with
    | some n => .ok (.int n)
    | Option.none => .error (.valueError ("invalid literal for int() with base 10: " ++ s))
  | v => .error (.typeError ("int() argument must be a string, a bytes-like object or a real number, not " ++ pyStr v))

/-- A positional-notation decimal string, e.g. `3.25` or `-17`, as a rational.
(Exponent and special-value forms of the Python float grammar are not
modelled; nothing in the repository exercises them.) -/
def parseDecimal? (s : String) : Option Rat :=
  match s.splitOn "." with
  | [a] => (a.toInt?).map (fun n => (n : Rat))
  | [a, b] =>
    match a.toInt?, b.toNat? with
    | some n, some f =>
      if b.length = 0 then Option.none
      else
        let frac : Rat := (f : Rat) / ((10 : Rat) ^ b.length)
        if a.startsWith "-" then some ((n : Rat) - frac) else some ((n : Rat) + frac)
    | _, _ => Option.none
  | _ => Option.none

/-- The `float(...)` constructor (default conversion of `FloatField`). -/
def floatConstructor : Value → Except PyErr Value
  | .float q => .ok (.float q)
  | .int n => .ok (.float (n : Rat))
  | .str s =>
    match parseDecimal? s with
    | some q => .ok (.float q)
    | Option.none => .error (.valueError ("could not convert string to float: " ++ s))
  | v => .error (.typeError ("float() argument must be a string or a real number, not " ++ pyStr v))

/-- The `str(...)` constructor (default conversion of `StringField`);
it never raises — in particular `str(None)` is the string `None`. -/
def strConstructor (v : Value) : Except PyErr Value :=
  .ok (.str (pyStr v))

/-- `date(...)` / `datetime(...)` called on a single value raises `TypeError`;
this default is installed by `Field.__init__` for date fields but is always
overwritten by the parser defaults in `BaseDateField` / `DateField`. -/
def dateTypeConstructor (v : Value) : Except PyErr Value :=
  .error (.typeError ("an integer is required, not " ++ pyStr v))

/-- Split a character list on the dash separator (a structurally recursive
stand-in for `str.split`, so that concrete runs reduce in the kernel). -/
def splitOnDash : List Char → List (List Char)
  | [] => [[]]
  | x :: xs =>
    match splitOnDash xs with
    | [] => [[]]
    | cur :: rest => if x = '-' then [] :: cur :: rest else (x :: cur) :: rest

/-- The numeric value of a digit character, if it is one. -/
def charDigit? (c : Char) : Option Nat :=
  if c.isDigit then some (c.toNat - 48) else Option.none

/-- Decimal value of a digit run (`Option.none` on a non-digit). -/
def digitsToNatAux : List Char → Nat → Option Nat
  | [], acc => some acc
  | c :: cs, acc =>
    match charDigit? c with
    | some d => digitsToNatAux cs (acc * 10 + d)
    | Option.none => Option.none

/-- A non-empty all-digit character run as a number. -/
def digitsToNat? (l : List Char) : Option Nat :=
  if l = [] then Option.none else digitsToNatAux l 0

/-- A `YYYY-MM-DD` date string as an abstract integer code. -/
def parseIsoDate? (s : String) : Option Int :=
  match splitOnDash s.data with
  | [y, m, d] =>
    match digitsToNat? y, digitsToNat? m, digitsToNat? d with
    | some yn, some mn, some dn =>
      if y.length = 4 ∧ 1 ≤ mn ∧ mn ≤ 12 ∧ 1 ≤ dn ∧ dn ≤ 31 then
        some ((yn : Int) * 10000 + (mn : Int) * 100 + (dn : Int))
      else Option.none
    | _, _, _ => Option.none
  | _ => Option.none

/-- Modelled from the spec: the external calendar string parser
(`dateutil.parser.parse`, an external collaborator specified only at its
interface) — string → calendar date-time, failing with an unknown-format
condition on unparseable strings and a `TypeError` on non-strings.  The
repository tests pin the failure message `Unknown string format: <input>`. -/
def dateutilParse : Value → Except PyErr Value
  | .str s =>
    match parseIsoDate? s with
    | some code => .ok (.datetime code)
    | Option.none => .error (.valueError ("Unknown string format: " ++ s))
  | v => .error (.typeError ("Parser must be a string or character stream, not " ++ pyStr v))

/-- `parse(value).date()`: truncate the parsed datetime to a date
(the conversion installed by `DateField.__init__`). -/
def dateFieldConversion (v : Value) : Except PyErr Value :=
  match dateutilParse v with
  | .ok (.datetime t) => .ok (.date t)
  | .ok w => .ok w
  | .error e => .error e

/-- A field descriptor: the union of the configuration of `Field` and of its
subclasses in `validators.py` (`NumericField`/`IntField` bounds, `StringField`
lengths and pattern, `BaseDateField` date bounds), together with the mutable
`_value` slot and the `_field_name` bound by `__set_name__`. -/
structure Field where
  kind : FieldKind
  value : Value
  nullable : Bool
  forceConversion : Bool
  conversionFunc : Value → Except PyErr Value
  customValidators : List (Value → Except PyErr Unit)
  fieldName : String
  minValue : Option Int
  maxValue : Option Int
  minLength : Option Nat
  maxLength : Option Nat
  minDate : Option Int
  maxDate : Option Int
  regexPattern : Option (String → Bool)

/-- The default conversion of each concrete field class: its own
`__field_type__` constructor (`custom_conversion or self.__field_type__`). -/
def typeConstructor : FieldKind → (Value → Except PyErr Value)
  | .intK => intConstructor
  | .floatK => floatConstructor
  | .strK => strConstructor
  | .dateK => dateTypeConstructor
  | .datetimeK => dateTypeConstructor

/-- `Field.__init__`: store the default as `_value`, record nullability and
forced conversion, and install `custom_conversion or self.__field_type__`
as `_conversion_func`.  The subclass-specific bounds start unset. -/
def Field.init (kind : FieldKind) (dflt : Value) (nullable : Bool)
    (customValidators : List (Value → Except PyErr Unit))
    (forceConversion : Bool)
    (customConversion : Option (Value → Except PyErr Value))
    (fieldName : String) : Field :=
  { kind := kind
    value := dflt
    nullable := nullable
    forceConversion := forceConversion
    conversionFunc := customConversion.getD (typeConstructor kind)
    customValidators := customValidators
    fieldName := fieldName
    minValue := Option.none
    maxValue := Option.none
    minLength := Option.none
    maxLength := Option.none
    minDate := Option.none
    maxDate := Option.none
    regexPattern := Option.none }

/-- `Field.set_conversion_func`. -/
def setConversionFunc (f : Field) (g : Value → Except PyErr Value) : Field :=
  { f with conversionFunc := g }

/-- `IntField(min_value=…, max_value=…, **kwargs)`: `NumericField.__init__`
stores the (type-coerced) bounds and delegates the rest to `Field.__init__`. -/
def mkIntField (minValue maxValue : Option Int) (dflt : Value) (nullable : Bool)
    (customValidators : List (Value → Except PyErr Unit))
    (forceConversion : Bool)
    (customConversion : Option (Value → Except PyErr Value))
    (fieldName : String) : Field :=
  { Field.init .intK dflt nullable customValidators forceConversion customConversion fieldName with
    minValue := minValue
    maxValue := maxValue }

/-- `FloatField(min_value=…, max_value=…, **kwargs)`: `FloatField` subclasses
`Field` directly (not `NumericField`), so the bound keywords are swallowed by
`Field.__init__`'s `**kwargs` and never stored. -/
def mkFloatField (_minValueKwarg _maxValueKwarg : Option Rat) (dflt : Value) (nullable : Bool)
    (customValidators : List (Value → Except PyErr Unit))
    (forceConversion : Bool)
    (customConversion : Option (Value → Except PyErr Value))
    (fieldName : String) : Field :=
  Field.init .floatK dflt nullable customValidators forceConversion customConversion fieldName

/-- `StringField(min_length=…, max_length=…, **kwargs)`; `pattern` is the
class-level `REGEX_PATTERN` (`none` on `StringField` itself, a matcher on
`EmailField`/`URLField`). -/
def mkStringField (minLength maxLength : Option Nat)
    (pattern : Option (String → Bool)) (dflt : Value) (nullable : Bool)
    (customValidators : List (Value → Except PyErr Unit))
    (forceConversion : Bool)
    (customConversion : Option (Value → Except PyErr Value))
    (fieldName : String) : Field :=
  { Field.init .strK dflt nullable customValidators forceConversion customConversion fieldName with
    minLength := minLength
    maxLength := maxLength
    regexPattern := pattern }

/-- `BaseDateField.__init__`: store the date bounds, run `Field.__init__`
(which installs `custom_conversion or __field_type__`), then — because the
guard reads `kwargs.get('_conversion_func')` while the constructor keyword is
`custom_conversion`, so the guard is truthy only if a caller literally passes
a `_conversion_func` keyword (which `Field.__init__` would swallow anyway) —
install the `dateutil` parser as the conversion function. -/
def mkBaseDateField (kind : FieldKind) (minDate maxDate : Option Int)
    (dflt : Value) (nullable : Bool)
    (customValidators : List (Value → Except PyErr Unit))
    (forceConversion : Bool)
    (customConversion : Option (Value → Except PyErr Value))
    (kwargsConversionFunc : Option (Value → Except PyErr Value))
    (fieldName : String) : Field :=
  let f :=
    { Field.init kind dflt nullable customValidators forceConversion customConversion fieldName with
      minDate := minDate
      maxDate := maxDate }
  match kwargsConversionFunc with
  | some _ => f
  | Option.none => setConversionFunc f dateutilParse

/-- `DateField.__init__`: run `BaseDateField.__init__` and then
unconditionally install `lambda value: parse(value).date()`. -/
def mkDateField (minDate maxDate : Option Int) (dflt : Value) (nullable : Bool)
    (customValidators : List (Value → Except PyErr Unit))
    (forceConversion : Bool)
    (customConversion : Option (Value → Except PyErr Value))
    (kwargsConversionFunc : Option (Value → Except PyErr Value))
    (fieldName : String) : Field :=
  setConversionFunc
    (mkBaseDateField .dateK minDate maxDate dflt nullable customValidators
      forceConversion customConversion kwargsConversionFunc fieldName)
    dateFieldConversion

/-- `DateTimeField`: `BaseDateField` with `__field_type__ = datetime`. -/
def mkDateTimeField (minDate maxDate : Option Int) (dflt : Value) (nullable : Bool)
    (customValidators : List (Value → Except PyErr Unit))
    (forceConversion : Bool)
    (customConversion : Option (Value → Except PyErr Value))
    (kwargsConversionFunc : Option (Value → Except PyErr Value))
    (fieldName : String) : Field :=
  mkBaseDateField .datetimeK minDate maxDate dflt nullable customValidators
    forceConversion customConversion kwargsConversionFunc fieldName

/-- Python whitespace, as far as `str.strip()` is concerned here. -/
def isPySpace (c : Char) : Bool :=
  c = ' ' ∨ c = '\t' ∨ c = '\n' ∨ c = '\r'

/-- `str.strip()`: drop leading and trailing whitespace (a structurally
recursive equivalent of `String.trim`, so that concrete messages reduce in
the kernel). -/
def pyStrip (s : String) : String :=
  ⟨((s.data.dropWhile isPySpace).reverse.dropWhile isPySpace).reverse⟩

/-- `Field._get_error_message`: fill the fixed template
`Field ‹name› value ‹value› is ‹error› ‹boundary›` and strip surrounding
whitespace. -/
def getErrorMessage (fieldName fieldValue errText boundaryValue : String) : String :=
  pyStrip ("Field `" ++ fieldName ++ "` value " ++ fieldValue ++ " is " ++ errText
    ++ " " ++ boundaryValue)

/-- `value < bound` for the numeric comparison of `NumericField`. -/
def intLtBound (v : Value) (m : Int) : Bool :=
  match v with
  | .int n => decide (n < m)
  | _ => false

/-- `value > bound` for the numeric comparison of `NumericField`. -/
def intGtBound (v : Value) (m : Int) : Bool :=
  match v with
  | .int n => decide (n > m)
  | _ => false

/-- `len(value)` for the string length checks. -/
def pyLen (v : Value) : Nat :=
  match v with
  | .str s => s.length
  | _ => 0

/-- The abstract date/datetime code of a value, for the date comparisons. -/
def dateCode (v : Value) : Int :=
  match v with
  | .date d => d
  | .datetime t => t
  | _ => 0

/-- `_built_in_validation`, dispatched per concrete class:
`NumericField` (hence `IntField`) checks min then max; `FloatField` inherits
`Field._built_in_validation`, which raises `NotImplementedError`;
`StringField` checks min length, max length, then the pattern if one is set;
`BaseDateField` checks max first (with `greater than max date`) and then min
(whose message reads `smaller than max date`, sic, in the source). -/
def builtInValidation (f : Field) (v : Value) : Except PyErr Unit :=
  match f.kind with
  | .intK =>
    match f.minValue with
    | some m =>
      if intLtBound v m then
        .error (.valueError (getErrorMessage f.fieldName (pyStr v) "smaller than min value" (toString m)))
      else
        match f.maxValue with
        | some M =>
          if intGtBound v M then
            .error (.valueError (getErrorMessage f.fieldName (pyStr v) "greater than max value" (toString M)))
          else .ok ()
        | Option.none => .ok ()
    | Option.none =>
      match f.maxValue with
      | some M =>
        if intGtBound v M then
          .error (.valueError (getErrorMessage f.fieldName (pyStr v) "greater than max value" (toString M)))
        else .ok ()
      | Option.none => .ok ()
  | .floatK =>
    .error (.notImplementedError "Initial validator for FloatField is not implemented")
  | .strK =>
    let len := pyLen v
    match f.minLength with
    | some m =>
      if len < m then
        .error (.valueError (getErrorMessage f.fieldName (pyStr v) "shorter than min length" (toString m)))
      else
        match f.maxLength with
        | some M =>
          if len > M then
            .error (.valueError (getErrorMessage f.fieldName (pyStr v) "longer than max length" (toString M)))
          else
            match f.regexPattern with
            | some p =>
              if p (pyStr v) then .ok ()
              else .error (.valueError (getErrorMessage f.fieldName (pyStr v) "not a valid pattern" ""))
            | Option.none => .ok ()
        | Option.none =>
          match f.regexPattern with
          | some p =>
            if p (pyStr v) then .ok ()
            else .error (.valueError (getErrorMessage f.fieldName (pyStr v) "not a valid pattern" ""))
          | Option.none => .ok ()
    | Option.none =>
      match f.maxLength with
      | some M =>
        if len > M then
          .error (.valueError (getErrorMessage f.fieldName (pyStr v) "longer than max length" (toString M)))
        else
          match f.regexPattern with
          | some p =>
            if p (pyStr v) then .ok ()
            else .error (.valueError (getErrorMessage f.fieldName (pyStr v) "not a valid pattern" ""))
          | Option.none => .ok ()
      | Option.none =>
        match f.regexPattern with
        | some p =>
          if p (pyStr v) then .ok ()
          else .error (.valueError (getErrorMessage f.fieldName (pyStr v) "not a valid pattern" ""))
        | Option.none => .ok ()
  | .dateK =>
    match f.maxDate with
    | some M =>
      if dateCode v > M then
        .error (.valueError (getErrorMessage f.fieldName (pyStr v) "greater than max date" (pyStr (.date M))))
      else
        match f.minDate with
        | some m =>
          if dateCode v < m then
            .error (.valueError (getErrorMessage f.fieldName (pyStr v) "smaller than max date" (pyStr (.date m))))
          else .ok ()
        | Option.none => .ok ()
    | Option.none =>
      match f.minDate with
      | some m =>
        if dateCode v < m then
          .error (.valueError (getErrorMessage f.fieldName (pyStr v) "smaller than max date" (pyStr (.date m))))
        else .ok ()
      | Option.none => .ok ()
  | .datetimeK =>
    match f.maxDate with
    | some M =>
      if dateCode v > M then
        .error (.valueError (getErrorMessage f.fieldName (pyStr v) "greater than max date" (pyStr (.datetime M))))
      else
        match f.minDate with
        | some m =>
          if dateCode v < m then
            .error (.valueError (getErrorMessage f.fieldName (pyStr v) "smaller than max date" (pyStr (.datetime m))))
          else .ok ()
        | Option.none => .ok ()
    | Option.none =>
      match f.minDate with
      | some m =>
        if dateCode v < m then
          .error (.valueError (getErrorMessage f.fieldName (pyStr v) "smaller than max date" (pyStr (.datetime m))))
        else .ok ()
      | Option.none => .ok ()

/-- The custom-validator chain: run in declaration order, first raise wins. -/
def runCustomValidators : List (Value → Except PyErr Unit) → Value → Except PyErr Unit
  | [], _ => .ok ()
  | g :: rest, v =>
    match g v with
    | .ok _ => runCustomValidators rest v
    | .error e => .error e

/-- `Field._convert_value`: when `forceConversion` is set and the value is not
already an instance of the field type, apply the conversion function and wrap
any raise in a `ConversionError` carrying the cause's message. -/
def convertValue (f : Field) (v : Value) : Except PyErr Value :=
  if f.forceConversion && !(isinstanceOf v f.kind) then
    match f.conversionFunc v with
    | .ok w => .ok w
    | .error e => .error (.conversionError (pyErrMsg e))
  else .ok v

/-- `Field.validate`: nullability check, `isinstance` check, built-in
validation, then the custom validators. -/
def Field.validate (f : Field) (v : Value) : Except PyErr Unit :=
  if v = Value.none && !f.nullable then
    .error (.valueError (f.fieldName ++ " field is not nullable"))
  else if !(isinstanceOf v f.kind) then
    .error (.valueError (f.fieldName ++ " value is not a valid type for " ++ kindTypeName f.kind))
  else
    match builtInValidation f v with
    | .error e => .error e
    | .ok _ => runCustomValidators f.customValidators v

/-- `Field.__set__`: convert, validate, and only then store to `_value`.
The returned field is the descriptor after the call: unchanged when an
exception (the `Option PyErr`) is raised at any stage. -/
def fieldDunderSet (f : Field) (v : Value) : Field × Option PyErr :=
  match convertValue f v with
  | .error e => (f, some e)
  | .ok w =>
    match f.validate w with
    | .error e => (f, some e)
    | .ok _ => ({ f with value := w }, Option.none)

/-- What `Form._clean_fields` writes into `cleaned_data`.  The source executes
`self._cleaned_data[key] = value` where `value` is the `Field` descriptor
yielded by `declared_fields.items()`; `Stored.val` is the shape the spec
describes (`field name → validated value`). -/
inductive Stored : Type
  | val (v : Value)
  | fieldObj (f : Field)

/-- One form instance mid-session (`forms.py`): the kind's name and merged
declared fields (whose descriptors hold the mutable `_value` slots), the raw
record, the `raise_exception_on_error` flag, the memoized `_cleaned_data` and
`_errors` (a `defaultdict(list)`), and the hooks resolved by name lookup —
`clean_<field>` per field and the optional whole-form `clean`.  As instance
methods the hooks can read the current field values, so they receive the
field store. -/
structure FormState where
  kindName : String
  fields : List (String × Field)
  data : List (String × Value)
  raiseOnError : Bool
  cleanedData : List (String × Stored)
  errors : List (String × List PyErr)
  fieldHooks : String → Option (List (String × Field) → Value → Except PyErr Value)
  cleanHook : Option (List (String × Field) → Except PyErr Unit)

/-- The recorded error list for a name (`[]` when the name has no entry). -/
def errorsOf (st : FormState) (k : String) : List PyErr :=
  (dictLookup st.errors k).getD []

/-- `self._errors[key].append(ex)` on the `defaultdict(list)`. -/
def errAppend (errs : List (String × List PyErr)) (k : String) (e : PyErr) :
    List (String × List PyErr) :=
  dictSet errs k ((dictLookup errs k).getD [] ++ [e])

/-- The `except` arm of the per-field loop: re-raise when
`raise_exception_on_error` is set, otherwise record under the field name. -/
def recordError (st : FormState) (key : String) (e : PyErr) : FormState × Option PyErr :=
  if st.raiseOnError then (st, some e)
  else ({ st with errors := errAppend st.errors key e }, Option.none)

/-- Mutation of one field descriptor in the shared declared-field store
(the effect of a successful `setattr` through the descriptor protocol). -/
def setFieldState (st : FormState) (key : String) (f : Field) : FormState :=
  { st with fields := dictSet st.fields key f }

/-- `Form._clean_field`: look up a `clean_<name>` hook; without one the value
passes through unchanged. -/
def cleanFieldHook (st : FormState) (key : String) (v : Value) : Except PyErr Value :=
  match st.fieldHooks key with
  | Option.none => .ok v
  | some h => h st.fields v

/-- The `try` body of one iteration of `Form._clean_fields` for the pair
`(key, value)` yielded by `declared_fields.items()`:
`setattr(self, key, self._data[key])` (a missing key raises `KeyError`), the
`clean_<key>` hook applied to `getattr(self, key)`, a second `setattr` of the
hook's result, then `self._cleaned_data[key] = value` — `value` being the
field descriptor object.  On a raise the state as mutated so far is returned
with the exception. -/
def tryCleanPair (st : FormState) (kf : String × Field) : Except (FormState × PyErr) FormState :=
  match dictLookup st.data kf.1 with
  | Option.none => .error (st, .keyError kf.1)
  | some raw =>
    match fieldDunderSet kf.2 raw with
    | (_, some e) => .error (st, e)
    | (f1, Option.none) =>
      let st1 := setFieldState st kf.1 f1
      match cleanFieldHook st1 kf.1 f1.value with
      | .error e => .error (st1, e)
      | .ok v1 =>
        match fieldDunderSet f1 v1 with
        | (_, some e) => .error (st1, e)
        | (f2, Option.none) =>
          let st2 := setFieldState st1 kf.1 f2
          .ok { st2 with cleanedData := dictSet st2.cleanedData kf.1 (Stored.fieldObj f2) }

/-- One iteration of the `_clean_fields` loop: the `try` body with its
`except` arm. -/
def cleanOnePair (st : FormState) (kf : String × Field) : FormState × Option PyErr :=
  match tryCleanPair st kf with
  | .ok st2 => (st2, Option.none)
  | .error (stM, e) => recordError stM kf.1 e

/-- The `_clean_fields` loop; a re-raise (second component `some`) aborts the
remaining fields. -/
def cleanFieldsLoop : FormState → List (String × Field) → FormState × Option PyErr
  | st, [] => (st, Option.none)
  | st, kf :: rest =>
    match cleanOnePair st kf with
    | (st1, Option.none) => cleanFieldsLoop st1 rest
    | (st1, some e) => (st1, some e)

/-- `Form._clean_fields`: iterate over `declared_fields.items()`. -/
def cleanFields (st : FormState) : FormState × Option PyErr :=
  cleanFieldsLoop st st.fields

/-- `Form.full_clean`: raise the usage `ValueError` when the raw record is
falsy (before anything is recorded or mutated), run the field loop, then —
when a `clean` hook exists and `_errors` is still falsy — run it, recording a
failure under the form kind's own name (or re-raising). -/
def fullClean (st : FormState) : FormState × Option PyErr :=
  if st.data.isEmpty then
    (st, some (.valueError ("No data was provided for " ++ st.kindName)))
  else
    match cleanFields st with
    | (st1, some e) => (st1, some e)
    | (st1, Option.none) =>
      match st1.cleanHook with
      | some h =>
        if st1.errors.isEmpty then
          match h st1.fields with
          | .ok _ => (st1, Option.none)
          | .error e =>
            if st1.raiseOnError then (st1, some e)
            else ({ st1 with errors := errAppend st1.errors st1.kindName e }, Option.none)
        else (st1, Option.none)
      | Option.none => (st1, Option.none)

/-- `Form.is_valid`: run `full_clean` when nothing is memoized yet (neither
cleaned data nor errors), then report whether `_errors` is falsy.  The boolean
is meaningful only when no exception (the `Option PyErr`) escaped. -/
def isValid (st : FormState) : FormState × Option PyErr × Bool :=
  let r := if st.cleanedData.isEmpty && st.errors.isEmpty then fullClean st
           else (st, Option.none)
  (r.1, r.2, r.1.errors.isEmpty)

/-- `form.errors[k]` read through the `errors` property: `_errors` is the
live `defaultdict(list)`, so reading an absent key inserts an empty list
under it. -/
def errorsGetItem (st : FormState) (k : String) : FormState × List PyErr :=
  match dictLookup st.errors k with
  | some l => (st, l)
  | Option.none => ({ st with errors := dictSet st.errors k [] }, [])

/-- A form class as `BaseFormMetaClass.__new__` leaves it: the stored
`declared_fields` of every class on its method-resolution order, most
ancestral first, the class itself last.  Each entry is already the merged
mapping computed when that class was created. -/
structure ClassInfo where
  chainDecls : List (List (String × Field))

/-- The class `Form` itself: no `Field` attributes, so its own
`declared_fields` is `{}` (`object`, which has no `declared_fields`, is
skipped by the `hasattr` test in the metaclass loop). -/
def formBaseClass : ClassInfo := ⟨[[]]⟩

/-- `BaseFormMetaClass.__new__` for a direct subclass: the class body's own
`Field` attributes become its `declared_fields` attribute; then the loop over
`reversed(new_class.__mro__)` updates an empty dict with every class's stored
`declared_fields` (for the new class itself that is still `own` at that
point), and the result replaces the new class's `declared_fields`. -/
def subclass (parent : ClassInfo) (own : List (String × Field)) : ClassInfo :=
  ⟨parent.chainDecls ++ [(parent.chainDecls ++ [own]).foldl dictUpdate []]⟩

/-- The effective `declared_fields` of a class: the merged mapping the
metaclass stored on it (the last entry of its chain). -/
def declaredFieldsOf (c : ClassInfo) : List (String × Field) :=
  c.chainDecls.getLastD []

/-- `Form.__init__`: a fresh instance holds the raw record (an empty record
stays empty), empty `_cleaned_data`, and an empty `defaultdict` of errors;
`declared_fields` is the class-level merged mapping. -/
def mkForm (c : ClassInfo) (kindName : String) (data : List (String × Value))
    (raiseOnError : Bool)
    (fieldHooks : String → Option (List (String × Field) → Value → Except PyErr Value))
    (cleanHook : Option (List (String × Field) → Except PyErr Unit)) : FormState :=
  { kindName := kindName
    fields := declaredFieldsOf c
    data := if data.isEmpty then [] else data
    raiseOnError := raiseOnError
    cleanedData := []
    errors := []
    fieldHooks := fieldHooks
    cleanHook := cleanHook }

/-- Left-biased choice on options (Python-style "first hit wins" lookup). -/
def optOr {α : Type} : Option α → Option α → Option α
  | some v, _ => some v
  | Option.none, o => o

/-- The spec's own description of the inheritance merge, stated from its
words: overlay each kind's newly-declared fields from the most ancestral kind
to the child, later overlay winning on a name collision — equivalently, a
name resolves to the child's own declaration first, then the parent's, then
the grandparent's. -/
def overlaySpecLookup (g p d : List (String × Field)) (n : String) : Option Field :=
  optOr (dictLookup d n) (optOr (dictLookup p n) (dictLookup g n))


/-! ### Dictionary lemmas -/

@[simp]
theorem dictKeys_nil {α : Type} : dictKeys ([] : List (String × α)) = [] := rfl

@[simp]
theorem dictKeys_cons {α : Type} (p : String × α) (d : List (String × α)) :
    dictKeys (p :: d) = p.1 :: dictKeys d := rfl

theorem dictLookup_dictSet_self {α : Type} (d : List (String × α)) (k : String) (v : α) :
    dictLookup (dictSet d k v) k = some v := by
  induction d with
  | nil => simp [dictSet, dictLookup]
  | cons p rest ih =>
    obtain ⟨k0, w⟩ := p
    by_cases h : k0 = k
    · simp [dictSet, h, dictLookup]
    · simp [dictSet, h, dictLookup, ih]

theorem dictLookup_dictSet_ne {α : Type} (d : List (String × α)) (k k' : String) (v : α)
    (h : k' ≠ k) : dictLookup (dictSet d k v) k' = dictLookup d k' := by
  have hne : ¬ k = k' := fun hh => h hh.symm
  induction d with
  | nil => simp [dictSet, dictLookup, hne]
  | cons p rest ih =>
    obtain ⟨k0, w⟩ := p
    by_cases h0 : k0 = k
    · subst h0
      simp [dictSet, dictLookup, hne]
    · simp [dictSet, h0, dictLookup, ih]

theorem mem_dictKeys_dictSet {α : Type} (d : List (String × α)) (k x : String) (v : α) :
    x ∈ dictKeys (dictSet d k v) ↔ x = k ∨ x ∈ dictKeys d := by
  induction d with
  | nil => simp [dictSet]
  | cons p rest ih =>
    obtain ⟨k0, w⟩ := p
    by_cases h0 : k0 = k
    · subst h0
      simp [dictSet]
    · simp only [dictSet, h0, if_false, dictKeys_cons, List.mem_cons, ih]
      tauto

theorem dictKeys_dictSet_mem {α : Type} (d : List (String × α)) (k : String) (v : α)
    (h : k ∈ dictKeys d) : dictKeys (dictSet d k v) = dictKeys d := by
  induction d with
  | nil => simp at h
  | cons p rest ih =>
    obtain ⟨k0, w⟩ := p
    by_cases h0 : k0 = k
    · subst h0
      simp [dictSet]
    · have hmem : k ∈ dictKeys rest := by
        rcases List.mem_cons.1 h with h1 | h1
        · exact absurd h1.symm h0
        · exact h1
      simp [dictSet, h0, ih hmem]

theorem dictKeys_dictSet_not_mem {α : Type} (d : List (String × α)) (k : String) (v : α)
    (h : k ∉ dictKeys d) : dictKeys (dictSet d k v) = dictKeys d ++ [k] := by
  induction d with
  | nil => simp [dictSet]
  | cons p rest ih =>
    obtain ⟨k0, w⟩ := p
    simp only [dictKeys_cons, List.mem_cons] at h
    by_cases h0 : k0 = k
    · exact absurd (Or.inl h0.symm) h
    · have hrest : k ∉ dictKeys rest := fun hc => h (Or.inr hc)
      simp [dictSet, h0, ih hrest]

theorem dictKeys_nodup_dictSet {α : Type} (d : List (String × α)) (k : String) (v : α)
    (h : (dictKeys d).Nodup) : (dictKeys (dictSet d k v)).Nodup := by
  by_cases hk : k ∈ dictKeys d
  · rw [dictKeys_dictSet_mem d k v hk]
    exact h
  · rw [dictKeys_dictSet_not_mem d k v hk]
    simp [List.nodup_append, h, hk]

theorem dictLookup_eq_none_iff {α : Type} (d : List (String × α)) (k : String) :
    dictLookup d k = Option.none ↔ k ∉ dictKeys d := by
  induction d with
  | nil => simp [dictLookup]
  | cons p rest ih =>
    obtain ⟨k0, w⟩ := p
    by_cases h0 : k0 = k
    · subst h0
      simp [dictLookup]
    · have hne : ¬ k = k0 := fun hh => h0 hh.symm
      simp only [dictLookup, h0, if_false, dictKeys_cons, List.mem_cons, ih]
      tauto

theorem mem_of_dictSet {α : Type} (d : List (String × α)) (k : String) (v : α)
    (p : String × α) (h : p ∈ dictSet d k v) : p = (k, v) ∨ p ∈ d := by
  induction d with
  | nil => simpa [dictSet] using h
  | cons q rest ih =>
    obtain ⟨k0, w⟩ := q
    by_cases h0 : k0 = k
    · subst h0
      rcases List.mem_cons.1 (by simpa [dictSet] using h) with h1 | h1
      · exact Or.inl h1
      · exact Or.inr (List.mem_cons_of_mem _ h1)
    · rcases List.mem_cons.1 (by simpa [dictSet, h0] using h) with h1 | h1
      · exact Or.inr (h1 ▸ List.mem_cons_self _ _)
      · rcases ih h1 with h2 | h2
        · exact Or.inl h2
        · exact Or.inr (List.mem_cons_of_mem _ h2)

theorem dictUpdate_nil {α : Type} (a : List (String × α)) : dictUpdate a [] = a := rfl

theorem dictUpdate_cons {α : Type} (a : List (String × α)) (p : String × α)
    (b : List (String × α)) :
    dictUpdate a (p :: b) = dictUpdate (dictSet a p.1 p.2) b := rfl

theorem dictKeys_nodup_dictUpdate {α : Type} (a b : List (String × α))
    (h : (dictKeys a).Nodup) : (dictKeys (dictUpdate a b)).Nodup := by
  induction b generalizing a with
  | nil => simpa [dictUpdate_nil] using h
  | cons p rest ih =>
    rw [dictUpdate_cons]
    exact ih _ (dictKeys_nodup_dictSet a p.1 p.2 h)

theorem dictLookup_dictUpdate {α : Type} (a b : List (String × α)) (n : String)
    (hb : (dictKeys b).Nodup) :
    dictLookup (dictUpdate a b) n = optOr (dictLookup b n) (dictLookup a n) := by
  induction b generalizing a with
  | nil => simp [dictUpdate_nil, dictLookup, optOr]
  | cons p rest ih =>
    obtain ⟨k0, w⟩ := p
    rw [dictKeys_cons, List.nodup_cons] at hb
    rw [dictUpdate_cons]
    rw [ih (dictSet a k0 w) hb.2]
    by_cases h0 : k0 = n
    · subst h0
      have hnone : dictLookup rest k0 = Option.none :=
        (dictLookup_eq_none_iff rest k0).2 hb.1
      simp [dictLookup, hnone, optOr, dictLookup_dictSet_self]
    · simp [dictLookup, h0, dictLookup_dictSet_ne a k0 n w (fun hh => h0 hh.symm)]

/-! ### Error-mapping lemmas -/

theorem dictLookup_errAppend_self (errs : List (String × List PyErr)) (k : String) (e : PyErr) :
    dictLookup (errAppend errs k e) k = some ((dictLookup errs k).getD [] ++ [e]) := by
  unfold errAppend
  exact dictLookup_dictSet_self errs k _

theorem dictLookup_errAppend_ne (errs : List (String × List PyErr)) (k k' : String) (e : PyErr)
    (h : k' ≠ k) : dictLookup (errAppend errs k e) k' = dictLookup errs k' := by
  unfold errAppend
  exact dictLookup_dictSet_ne errs k k' _ h

/-- Well-formedness of the error mapping: every recorded entry is non-empty
(`_errors` is only ever written through `append`). -/
def errsWf (errs : List (String × List PyErr)) : Prop :=
  ∀ p ∈ errs, p.2 ≠ ([] : List PyErr)

theorem errsWf_errAppend (errs : List (String × List PyErr)) (k : String) (e : PyErr)
    (h : errsWf errs) : errsWf (errAppend errs k e) := by
  intro p hp
  rcases mem_of_dictSet _ _ _ _ hp with h1 | h1
  · subst h1
    simp
  · exact h p h1

/-! ### Structure of one iteration of the field loop -/

@[simp]
theorem setFieldState_data (st : FormState) (k : String) (f : Field) :
    (setFieldState st k f).data = st.data := rfl

@[simp]
theorem setFieldState_raiseOnError (st : FormState) (k : String) (f : Field) :
    (setFieldState st k f).raiseOnError = st.raiseOnError := rfl

@[simp]
theorem setFieldState_kindName (st : FormState) (k : String) (f : Field) :
    (setFieldState st k f).kindName = st.kindName := rfl

@[simp]
theorem setFieldState_cleanHook (st : FormState) (k : String) (f : Field) :
    (setFieldState st k f).cleanHook = st.cleanHook := rfl

@[simp]
theorem setFieldState_fieldHooks (st : FormState) (k : String) (f : Field) :
    (setFieldState st k f).fieldHooks = st.fieldHooks := rfl

@[simp]
theorem setFieldState_cleanedData (st : FormState) (k : String) (f : Field) :
    (setFieldState st k f).cleanedData = st.cleanedData := rfl

@[simp]
theorem setFieldState_errors (st : FormState) (k : String) (f : Field) :
    (setFieldState st k f).errors = st.errors := rfl

/-- Everything later proofs need about one iteration of `_clean_fields`:
the raw record, flag, kind name and whole-form hook are untouched; and the
iteration either succeeds — writing the field descriptor into `cleaned_data`
under its key, errors untouched — or fails with some exception, leaving
`cleaned_data` untouched and either re-raising (flag set) or appending the
exception under the field's key (flag unset). -/
theorem cleanOnePair_spec (st : FormState) (kf : String × Field) :
    ((cleanOnePair st kf).1.data = st.data
      ∧ (cleanOnePair st kf).1.raiseOnError = st.raiseOnError
      ∧ (cleanOnePair st kf).1.kindName = st.kindName
      ∧ (cleanOnePair st kf).1.cleanHook = st.cleanHook)
    ∧ ((∃ f2, (cleanOnePair st kf).1.cleanedData
            = dictSet st.cleanedData kf.1 (Stored.fieldObj f2)
          ∧ (cleanOnePair st kf).1.errors = st.errors
          ∧ (cleanOnePair st kf).2 = Option.none)
      ∨ (∃ e, (cleanOnePair st kf).1.cleanedData = st.cleanedData
          ∧ ((st.raiseOnError = true ∧ (cleanOnePair st kf).1.errors = st.errors
                ∧ (cleanOnePair st kf).2 = some e)
            ∨ (st.raiseOnError = false
                ∧ (cleanOnePair st kf).1.errors = errAppend st.errors kf.1 e
                ∧ (cleanOnePair st kf).2 = Option.none)))) := by
  unfold cleanOnePair tryCleanPair
  cases hd : dictLookup st.data kf.1 with
  | none =>
    cases hr : st.raiseOnError <;> simp [hd, recordError, hr]
  | some raw =>
    cases hset : fieldDunderSet kf.2 raw with
    | mk f1 o1 =>
      cases o1 with
      | some e =>
        cases hr : st.raiseOnError <;> simp [hd, hset, recordError, hr]
      | none =>
        cases hhook : cleanFieldHook (setFieldState st kf.1 f1) kf.1 f1.value with
        | error e =>
          cases hr : st.raiseOnError <;>
            simp [hd, hset, hhook, recordError, hr]
        | ok v1 =>
          cases hset2 : fieldDunderSet f1 v1 with
          | mk f2 o2 =>
            cases o2 with
            | some e =>
              cases hr : st.raiseOnError <;>
                simp [hd, hset, hhook, hset2, recordError, hr]
            | none =>
              simp [hd, hset, hhook, hset2]
              exact Or.inl ⟨f2, rfl⟩

/-! ### Structure of the whole field loop and of `full_clean` -/

theorem cleanFieldsLoop_inv (l : List (String × Field)) (st : FormState) :
    (cleanFieldsLoop st l).1.data = st.data
    ∧ (cleanFieldsLoop st l).1.raiseOnError = st.raiseOnError
    ∧ (cleanFieldsLoop st l).1.kindName = st.kindName
    ∧ (cleanFieldsLoop st l).1.cleanHook = st.cleanHook := by
  induction l generalizing st with
  | nil => simp [cleanFieldsLoop]
  | cons kf rest ih =>
    have hspec := (cleanOnePair_spec st kf).1
    unfold cleanFieldsLoop
    cases ho : cleanOnePair st kf with
    | mk st1 o =>
      rw [ho] at hspec
      cases o with
      | none =>
        have hr := ih st1
        exact ⟨hr.1.trans hspec.1, hr.2.1.trans hspec.2.1,
          hr.2.2.1.trans hspec.2.2.1, hr.2.2.2.trans hspec.2.2.2⟩
      | some e => exact hspec

theorem cleanFieldsLoop_no_raise (l : List (String × Field)) (st : FormState)
    (h : st.raiseOnError = false) : (cleanFieldsLoop st l).2 = Option.none := by
  induction l generalizing st with
  | nil => simp [cleanFieldsLoop]
  | cons kf rest ih =>
    have hspec := cleanOnePair_spec st kf
    unfold cleanFieldsLoop
    cases ho : cleanOnePair st kf with
    | mk st1 o =>
      rw [ho] at hspec
      cases o with
      | none => exact ih st1 (hspec.1.2.1.trans h)
      | some e =>
        exfalso
        rcases hspec.2 with ⟨f2, _, _, hnone⟩ | ⟨e2, _, hcase⟩
        · simp at hnone
        · rcases hcase with ⟨htrue, _, _⟩ | ⟨_, _, hnone⟩
          · rw [h] at htrue
            simp at htrue
          · simp at hnone

theorem errorsOf_errAppend_mono (errs : List (String × List PyErr)) (k k' : String) (e : PyErr)
    (h : (dictLookup errs k').getD [] ≠ []) :
    (dictLookup (errAppend errs k e) k').getD [] ≠ [] := by
  by_cases hk : k' = k
  · subst hk
    rw [dictLookup_errAppend_self]
    simp
  · rw [dictLookup_errAppend_ne errs k k' e hk]
    exact h

theorem cleanOnePair_errors_mono (st : FormState) (kf : String × Field) (k : String)
    (h : errorsOf st k ≠ []) : errorsOf (cleanOnePair st kf).1 k ≠ [] := by
  unfold errorsOf at h ⊢
  rcases (cleanOnePair_spec st kf).2 with ⟨f2, _, herr, _⟩ | ⟨e, _, hcase⟩
  · rw [herr]
    exact h
  · rcases hcase with ⟨_, herr, _⟩ | ⟨_, herr, _⟩
    · rw [herr]
      exact h
    · rw [herr]
      exact errorsOf_errAppend_mono st.errors kf.1 k e h

theorem cleanFieldsLoop_errors_mono (l : List (String × Field)) (st : FormState) (k : String)
    (h : errorsOf st k ≠ []) : errorsOf (cleanFieldsLoop st l).1 k ≠ [] := by
  induction l generalizing st with
  | nil => simpa [cleanFieldsLoop] using h
  | cons kf rest ih =>
    have hmono := cleanOnePair_errors_mono st kf k h
    unfold cleanFieldsLoop
    cases ho : cleanOnePair st kf with
    | mk st1 o =>
      rw [ho] at hmono
      cases o with
      | none => exact ih st1 hmono
      | some e => exact hmono

theorem cleanOnePair_preserve_other (st : FormState) (kf : String × Field) (k : String)
    (hne : k ≠ kf.1) :
    (k ∈ dictKeys (cleanOnePair st kf).1.cleanedData ↔ k ∈ dictKeys st.cleanedData)
    ∧ errorsOf (cleanOnePair st kf).1 k = errorsOf st k := by
  unfold errorsOf
  rcases (cleanOnePair_spec st kf).2 with ⟨f2, hcd, herr, _⟩ | ⟨e, hcd, hcase⟩
  · rw [hcd, herr]
    constructor
    · rw [mem_dictKeys_dictSet]
      simp [hne]
    · rfl
  · rcases hcase with ⟨_, herr, _⟩ | ⟨_, herr, _⟩
    · rw [hcd, herr]
      simp
    · rw [hcd, herr, dictLookup_errAppend_ne st.errors kf.1 k e hne]
      simp

theorem cleanFieldsLoop_preserve_other (l : List (String × Field)) (st : FormState) (k : String)
    (hk : ∀ kf ∈ l, k ≠ kf.1) :
    (k ∈ dictKeys (cleanFieldsLoop st l).1.cleanedData ↔ k ∈ dictKeys st.cleanedData)
    ∧ errorsOf (cleanFieldsLoop st l).1 k = errorsOf st k := by
  induction l generalizing st with
  | nil => simp [cleanFieldsLoop]
  | cons kf rest ih =>
    have hstep := cleanOnePair_preserve_other st kf k (hk kf (by simp))
    unfold cleanFieldsLoop
    cases ho : cleanOnePair st kf with
    | mk st1 o =>
      rw [ho] at hstep
      cases o with
      | none =>
        have hrest := ih st1 (fun kf2 h2 => hk kf2 (by simp [h2]))
        exact ⟨hrest.1.trans hstep.1, hrest.2.trans hstep.2⟩
      | some e => exact hstep

/-- Failure of the first stage of a field's iteration — `setattr(self, key,
self._data[key])` on the field descriptor as declared: the raw record has no
entry for the key (`KeyError`), or the descriptor's set raises.  This
predicate depends only on the raw record (immutable for the session) and on
the declared pair, so it is stable across the loop. -/
def firstSetFails (st : FormState) (kf : String × Field) : Bool :=
  match dictLookup st.data kf.1 with
  | Option.none => true
  | some raw => ((fieldDunderSet kf.2 raw).2).isSome

theorem firstSetFails_congr (st st' : FormState) (kf : String × Field)
    (h : st'.data = st.data) : firstSetFails st' kf = firstSetFails st kf := by
  unfold firstSetFails
  rw [h]

theorem errorsOf_recordError (st : FormState) (k : String) (e : PyErr)
    (hr : st.raiseOnError = false) :
    errorsOf (recordError st k e).1 k = errorsOf st k ++ [e] := by
  unfold recordError errorsOf
  rw [hr]
  simp [dictLookup_errAppend_self]

theorem cleanOnePair_no_raise (st : FormState) (kf : String × Field)
    (hr : st.raiseOnError = false) : (cleanOnePair st kf).2 = Option.none := by
  rcases (cleanOnePair_spec st kf).2 with ⟨f2, _, _, hnone⟩ | ⟨e2, _, hcase⟩
  · exact hnone
  · rcases hcase with ⟨htrue, _, _⟩ | ⟨_, _, hnone⟩
    · rw [hr] at htrue
      simp at htrue
    · exact hnone

theorem cleanOnePair_fail_records (st : FormState) (kf : String × Field)
    (hr : st.raiseOnError = false) (hf : firstSetFails st kf = true) :
    errorsOf (cleanOnePair st kf).1 kf.1 ≠ [] := by
  unfold firstSetFails at hf
  cases hd : dictLookup st.data kf.1 with
  | none =>
    have hred : cleanOnePair st kf = recordError st kf.1 (PyErr.keyError kf.1) := by
      unfold cleanOnePair tryCleanPair
      rw [hd]
    rw [hred, errorsOf_recordError st kf.1 _ hr]
    simp
  | some raw =>
    have hf2 : ((fieldDunderSet kf.2 raw).2).isSome = true := by
      rw [hd] at hf
      exact hf
    cases hset : fieldDunderSet kf.2 raw with
    | mk f1 o1 =>
      cases o1 with
      | some e =>
        have hred : cleanOnePair st kf = recordError st kf.1 e := by
          unfold cleanOnePair tryCleanPair
          simp only [hd]
          rw [hset]
        rw [hred, errorsOf_recordError st kf.1 _ hr]
        simp
      | none =>
        rw [hset] at hf2
        simp at hf2

theorem cleanFieldsLoop_fail_records (l : List (String × Field)) (st : FormState)
    (kf : String × Field) (hr : st.raiseOnError = false) (hmem : kf ∈ l)
    (hf : firstSetFails st kf = true) :
    errorsOf (cleanFieldsLoop st l).1 kf.1 ≠ [] := by
  induction l generalizing st with
  | nil => simp at hmem
  | cons kf0 rest ih =>
    have hspec := cleanOnePair_spec st kf0
    have hnone := cleanOnePair_no_raise st kf0 hr
    unfold cleanFieldsLoop
    cases ho : cleanOnePair st kf0 with
    | mk st1 o =>
      rw [ho] at hspec hnone
      simp only at hnone
      subst hnone
      rcases List.mem_cons.1 hmem with heq | hrest
      · subst heq
        have hrec := cleanOnePair_fail_records st kf hr hf
        rw [ho] at hrec
        exact cleanFieldsLoop_errors_mono rest st1 kf.1 hrec
      · exact ih st1 (hspec.1.2.1.trans hr) hrest
          (by rw [firstSetFails_congr st st1 kf hspec.1.1]; exact hf)

theorem fullClean_shape (st : FormState) (hd : st.data.isEmpty = false) :
    (fullClean st).1.cleanedData = (cleanFields st).1.cleanedData
    ∧ ((fullClean st).1.errors = (cleanFields st).1.errors
      ∨ ∃ e, (fullClean st).1.errors
          = errAppend (cleanFields st).1.errors (cleanFields st).1.kindName e) := by
  unfold fullClean
  rw [hd]
  simp only [Bool.false_eq_true, if_false]
  cases hc : cleanFields st with
  | mk st1 o =>
    cases o with
    | some e => simp
    | none =>
      cases hh : st1.cleanHook with
      | none => simp [hh]
      | some h =>
        cases he : st1.errors.isEmpty with
        | false => simp [hh, he]
        | true =>
          cases hrr : h st1.fields with
          | ok u => simp [hh, he, hrr]
          | error e =>
            cases hraise : st1.raiseOnError with
            | true => simp [hh, he, hrr, hraise]
            | false =>
              refine ⟨?_, Or.inr ⟨e, ?_⟩⟩ <;> simp [hh, he, hrr, hraise]

theorem cleanFieldsLoop_partition (l : List (String × Field)) (st : FormState)
    (kf : String × Field)
    (hr : st.raiseOnError = false)
    (hnodup : (l.map Prod.fst).Nodup)
    (hmem : kf ∈ l)
    (hcd : kf.1 ∉ dictKeys st.cleanedData)
    (herr : errorsOf st kf.1 = []) :
    (kf.1 ∈ dictKeys (cleanFieldsLoop st l).1.cleanedData
        ∧ errorsOf (cleanFieldsLoop st l).1 kf.1 = [])
    ∨ (kf.1 ∉ dictKeys (cleanFieldsLoop st l).1.cleanedData
        ∧ errorsOf (cleanFieldsLoop st l).1 kf.1 ≠ []) := by
  induction l generalizing st with
  | nil => cases hmem
  | cons kf0 rest ih =>
    have hspec := cleanOnePair_spec st kf0
    have hnone := cleanOnePair_no_raise st kf0 hr
    simp only [List.map_cons, List.nodup_cons] at hnodup
    unfold cleanFieldsLoop
    cases ho : cleanOnePair st kf0 with
    | mk st1 o =>
      rw [ho] at hspec hnone
      simp only at hnone
      subst hnone
      rcases List.mem_cons.1 hmem with heq | hrest
      · subst heq
        have hnotin : ∀ kf2 ∈ rest, kf.1 ≠ kf2.1 := by
          intro kf2 h2 hcontra
          exact hnodup.1 (hcontra ▸ List.mem_map_of_mem Prod.fst h2)
        have hpres := cleanFieldsLoop_preserve_other rest st1 kf.1 hnotin
        rcases hspec.2 with ⟨f2, hcd1, herr1, _⟩ | ⟨e, hcd1, hcase⟩
        · left
          constructor
          · rw [hpres.1, hcd1, mem_dictKeys_dictSet]
            left
            rfl
          · rw [hpres.2]
            unfold errorsOf at herr ⊢
            rw [herr1]
            exact herr
        · right
          rcases hcase with ⟨htrue, _, _⟩ | ⟨_, herr1, _⟩
          · rw [hr] at htrue
            simp at htrue
          · constructor
            · rw [hpres.1, hcd1]
              exact hcd
            · rw [hpres.2]
              unfold errorsOf at herr ⊢
              rw [herr1, dictLookup_errAppend_self]
              simp
      · have hkey : kf.1 ≠ kf0.1 := by
          intro hcontra
          exact hnodup.1 (hcontra ▸ List.mem_map_of_mem Prod.fst hrest)
        have hpres := cleanOnePair_preserve_other st kf0 kf.1 hkey
        rw [ho] at hpres
        exact ih st1 (hspec.1.2.1.trans hr) hnodup.2 hrest
          (fun hcon => hcd (hpres.1.1 hcon)) (hpres.2.trans herr)

/-! ### Well-formedness of the error mapping through the pipeline -/

theorem errsWf_cleanOnePair (st : FormState) (kf : String × Field)
    (h : errsWf st.errors) : errsWf (cleanOnePair st kf).1.errors := by
  rcases (cleanOnePair_spec st kf).2 with ⟨f2, _, herr, _⟩ | ⟨e, _, hcase⟩
  · rw [herr]
    exact h
  · rcases hcase with ⟨_, herr, _⟩ | ⟨_, herr, _⟩
    · rw [herr]
      exact h
    · rw [herr]
      exact errsWf_errAppend st.errors kf.1 e h

theorem errsWf_cleanFieldsLoop (l : List (String × Field)) (st : FormState)
    (h : errsWf st.errors) : errsWf (cleanFieldsLoop st l).1.errors := by
  induction l generalizing st with
  | nil => simpa [cleanFieldsLoop] using h
  | cons kf rest ih =>
    have hstep := errsWf_cleanOnePair st kf h
    unfold cleanFieldsLoop
    cases ho : cleanOnePair st kf with
    | mk st1 o =>
      rw [ho] at hstep
      cases o with
      | none => exact ih st1 hstep
      | some e => exact hstep

theorem errsWf_fullClean (st : FormState) (h : errsWf st.errors) :
    errsWf (fullClean st).1.errors := by
  by_cases hd : st.data.isEmpty
  · unfold fullClean
    rw [hd]
    simpa using h
  · have hwf : errsWf (cleanFields st).1.errors :=
      errsWf_cleanFieldsLoop st.fields st h
    rcases (fullClean_shape st (by simpa using hd)).2 with herr | ⟨e, herr⟩
    · rw [herr]
      exact hwf
    · rw [herr]
      exact errsWf_errAppend _ _ e hwf

/-! ### Concrete fixtures (forms and fields used by witnesses and
counterexamples) -/

/-- An `IntField(min_value=18)` bound to the name `age` (no forced
conversion, not nullable, no custom validators). -/
def ageField : Field :=
  mkIntField (some 18) Option.none Value.none false [] false Option.none "age"

/-- A `StringField(max_length=20)` bound to the name `name`. -/
def nameField : Field :=
  mkStringField Option.none (some 20) Option.none Value.none false [] false Option.none "name"

/-- The trivial hook table: no `clean_<field>` method is defined. -/
def noHooks : String → Option (List (String × Field) → Value → Except PyErr Value) :=
  fun _ => Option.none

/-- A form whose record is empty (for the usage-error scenario). -/
def emptySignup : FormState :=
  mkForm (subclass formBaseClass [("age", ageField)]) "SignupForm" [] true noHooks Option.none

/-- A form in which the two declared fields `age` and `name` both fail
validation (`age` below the minimum, `name` given a non-string). -/
def failTwoForm : FormState :=
  mkForm (subclass formBaseClass [("age", ageField), ("name", nameField)])
    "TwoFailForm" [("age", Value.int 12), ("name", Value.int 3)] false noHooks Option.none

/-! ### The claims -/

/-- Claim C6: for every form whose raw data record is empty, `fullClean()`
raises the usage `ValueError` whose message names the form kind, regardless
of the `raiseOnError` flag (the statement never mentions it), and the state
— in particular the errors mapping — is returned unchanged, so the error is
never recorded. -/
theorem claim_C6 (st : FormState) (h : st.data = []) :
    fullClean st
      = (st, some (.valueError ("No data was provided for " ++ st.kindName))) := by
  unfold fullClean
  rw [h]
  simp

/-- Witness for C6 on the concrete empty-record form. -/
theorem claim_C6_witness :
    emptySignup.data = []
    ∧ fullClean emptySignup
        = (emptySignup,
            some (.valueError ("No data was provided for " ++ emptySignup.kindName))) :=
  ⟨rfl, claim_C6 emptySignup rfl⟩

/-- Claim C9: `Field.__set__` is all-or-nothing — when any stage raises, the
descriptor (in particular its `currentValue`) is exactly as before the call;
when no stage raises, the stored value is the converted value, which passed
validation. -/
theorem claim_C9 (f : Field) (raw : Value) :
    (∀ e, (fieldDunderSet f raw).2 = some e → (fieldDunderSet f raw).1 = f)
    ∧ ((fieldDunderSet f raw).2 = Option.none →
        ∃ v, convertValue f raw = .ok v ∧ f.validate v = .ok ()
          ∧ (fieldDunderSet f raw).1 = { f with value := v }) := by
  unfold fieldDunderSet
  cases hc : convertValue f raw with
  | error e => simp [hc]
  | ok w =>
    cases hv : Field.validate f w with
    | error e => simp [hc, hv]
    | ok u =>
      constructor
      · intro e h
        simp [hc, hv] at h
      · intro hnone
        refine ⟨w, rfl, ?_, ?_⟩
        · rw [hv]
        · simp [hc, hv]

/-- Witness for C9: a rejected set leaves the `age` descriptor untouched, and
an accepted set stores the (identity-converted) value. -/
theorem claim_C9_witness :
    (fieldDunderSet ageField (Value.int 17)).1 = ageField
    ∧ (fieldDunderSet ageField (Value.int 21)).1 = { ageField with value := Value.int 21 } := by
  constructor
  · exact (claim_C9 ageField (Value.int 17)).1
      (.valueError "Field `age` value 17 is smaller than min value 18") (by rfl)
  · obtain ⟨v, hv, _, h⟩ := (claim_C9 ageField (Value.int 21)).2 rfl
    have hveq : v = Value.int 21 := by
      have h2 : (Except.ok (Value.int 21) : Except PyErr Value) = Except.ok v := hv
      simpa using h2.symm
    rw [h, hveq]

/-- Claim C5: with `raiseOnError` false and a non-empty record, when two
distinct declared fields both fail at the descriptor-set stage, one
`fullClean()` records at least one error under each of their names — no
field's failure prevents later fields from being processed. -/
theorem claim_C5 (st : FormState) (A B : String × Field)
    (hr : st.raiseOnError = false)
    (hd : st.data ≠ [])
    (hA : A ∈ st.fields) (hB : B ∈ st.fields)
    (_hAB : A.1 ≠ B.1)
    (hAf : firstSetFails st A = true) (hBf : firstSetFails st B = true) :
    errorsOf (fullClean st).1 A.1 ≠ [] ∧ errorsOf (fullClean st).1 B.1 ≠ [] := by
  have hd2 : st.data.isEmpty = false := by
    simpa [List.isEmpty_iff] using hd
  have hrecA := cleanFieldsLoop_fail_records st.fields st A hr hA hAf
  have hrecB := cleanFieldsLoop_fail_records st.fields st B hr hB hBf
  have hshape := (fullClean_shape st hd2).2
  have hlift : ∀ k, errorsOf (cleanFields st).1 k ≠ [] → errorsOf (fullClean st).1 k ≠ [] := by
    intro k hk
    unfold errorsOf at hk ⊢
    rcases hshape with herr | ⟨e, herr⟩
    · rw [herr]
      exact hk
    · rw [herr]
      exact errorsOf_errAppend_mono _ _ k e hk
  exact ⟨hlift A.1 hrecA, hlift B.1 hrecB⟩

/-- Witness for C5 on the concrete two-failing-field form. -/
theorem claim_C5_witness :
    errorsOf (fullClean failTwoForm).1 "age" ≠ []
    ∧ errorsOf (fullClean failTwoForm).1 "name" ≠ [] :=
  claim_C5 failTwoForm ("age", ageField) ("name", nameField) rfl (by decide)
    (List.Mem.head _) (List.Mem.tail _ (List.Mem.head _)) (by decide) rfl rfl

/-- A one-field form whose single field `age` passes validation. -/
def passingForm : FormState :=
  mkForm (subclass formBaseClass [("age", ageField)]) "PassForm"
    [("age", Value.int 20)] false noHooks Option.none

/-- Claim C1 (evaluation at the failing input): on a form whose `age` field
passes every stage with final value `20`, `cleanedData["age"]` holds the
field descriptor object (whose `_value` is `20`), and does not equal the
converted-and-validated value itself for any value — the loop executes
`self._cleaned_data[key] = value` with `value` bound to the descriptor from
`declared_fields.items()`, not to `cleaned_field`. -/
theorem claim_C1 :
    (∃ f, dictLookup (fullClean passingForm).1.cleanedData "age"
          = some (Stored.fieldObj f)
        ∧ f.value = Value.int 20)
    ∧ ∀ v : Value,
        dictLookup (fullClean passingForm).1.cleanedData "age" ≠ some (Stored.val v) := by
  constructor
  · exact ⟨{ ageField with value := Value.int 20 }, rfl, rfl⟩
  · intro v h
    have h2 : Stored.fieldObj { ageField with value := Value.int 20 } = Stored.val v :=
      Option.some.inj h
    exact Stored.noConfusion h2

/-- A `FloatField(min_value=18, max_value=60)`: the bounds are swallowed. -/
def heightField : Field :=
  mkFloatField (some 18) (some 60) Value.none false [] false Option.none "height"

/-- Claim C2 (evaluation at the failing input): the integer half of the claim
holds — `IntField(min_value=18)` stores `18` and rejects `17` with the exact
boundary message — but `FloatField` subclasses `Field` directly, so setting
an in-range float (`20`) on a bounded float field raises
`NotImplementedError` from `Field._built_in_validation` instead of storing
the value. -/
theorem claim_C2 :
    (fieldDunderSet ageField (Value.int 18)
        = ({ ageField with value := Value.int 18 }, Option.none))
    ∧ (fieldDunderSet ageField (Value.int 17)
        = (ageField, some (.valueError "Field `age` value 17 is smaller than min value 18")))
    ∧ (fieldDunderSet heightField (Value.float 20)
        = (heightField,
            some (.notImplementedError "Initial validator for FloatField is not implemented"))) :=
  ⟨rfl, rfl, rfl⟩

/-- A conversion function a caller supplies: it accepts anything. -/
def fixedDateConv : Value → Except PyErr Value := fun _ => .ok (Value.date 0)

/-- `DateField(force_conversion=True, custom_conversion=fixedDateConv)`. -/
def customDob : Field :=
  mkDateField Option.none Option.none Value.none false [] true (some fixedDateConv)
    Option.none "date_of_birth"

/-- `DateTimeField(force_conversion=True, custom_conversion=fixedDateConv)`. -/
def customCreated : Field :=
  mkDateTimeField Option.none Option.none Value.none false [] true (some fixedDateConv)
    Option.none "created_at"

/-- Claim C3 (evaluation at the failing input): a date and a date-time field
constructed with a custom conversion function do NOT apply it — the
constructors overwrite it with the default parser (the `BaseDateField` guard
reads the wrong kwarg key, and `DateField` overrides unconditionally), so a
raw value the supplied function would happily convert fails with the default
parser's unknown-format `ConversionError`. -/
theorem claim_C3 :
    (fieldDunderSet customDob (Value.str "x")
        = (customDob, some (.conversionError "Unknown string format: x")))
    ∧ (fieldDunderSet customCreated (Value.str "x")
        = (customCreated, some (.conversionError "Unknown string format: x")))
    ∧ fixedDateConv (Value.str "x") = .ok (Value.date 0) :=
  ⟨rfl, rfl, rfl⟩

/-- A `StringField(nullable=True, force_conversion=True)`. -/
def nullableNick : Field :=
  mkStringField Option.none Option.none Option.none Value.none true [] true Option.none "nick"

/-- Counterexample to C10 as stated: on a string field with forced conversion
(and nullable=True), setting `None` does NOT fail with a `ConversionError` —
`str(None)` succeeds, so the set stores the string `None`. -/
theorem claim_C10_cx :
    fieldDunderSet nullableNick Value.none
      = ({ nullableNick with value := Value.str "None" }, Option.none) := rfl

/-- Claim C10 (amended): for every field with forced conversion, setting
`None` attempts conversion first (`None` is never an instance of the field
type), and whenever the conversion function raises on `None` — as the
default `int`/`float`/date conversions do — the set fails with a
`ConversionError` wrapping that raise, whatever `nullable` is; the
nullability check is reached only by values that survive conversion (a
converter that accepts `None`, such as `str`, proceeds with the converted
value instead). -/
theorem claim_C10 (f : Field) (hF : f.forceConversion = true) (e : PyErr)
    (hConv : f.conversionFunc Value.none = .error e) :
    fieldDunderSet f Value.none = (f, some (.conversionError (pyErrMsg e))) := by
  have hinst : isinstanceOf Value.none f.kind = false := by
    cases hk : f.kind <;> rfl
  unfold fieldDunderSet convertValue
  rw [hF, hinst, hConv]
  simp

/-- An `IntField(nullable=True, force_conversion=True)`. -/
def nullableAge : Field :=
  mkIntField Option.none Option.none Value.none true [] true Option.none "age0"

/-- Witness for C10 on a nullable forced-conversion `IntField`: `int(None)`
raises `TypeError`, so the set fails with the wrapping `ConversionError`. -/
theorem claim_C10_witness :
    fieldDunderSet nullableAge Value.none
      = (nullableAge,
          some (.conversionError
            "int() argument must be a string, a bytes-like object or a real number, not None")) :=
  claim_C10 nullableAge rfl
    (.typeError "int() argument must be a string, a bytes-like object or a real number, not None")
    rfl

theorem dictLookup_mem {α : Type} (d : List (String × α)) (k : String) (v : α)
    (h : dictLookup d k = some v) : (k, v) ∈ d := by
  induction d with
  | nil => simp [dictLookup] at h
  | cons p rest ih =>
    obtain ⟨k0, w⟩ := p
    by_cases h0 : k0 = k
    · subst h0
      simp [dictLookup] at h
      simp [h]
    · simp [dictLookup, h0] at h
      exact List.mem_cons_of_mem _ (ih h)

/-- A one-field form that cleans successfully. -/
def okOneForm : FormState :=
  mkForm (subclass formBaseClass [("age", ageField)]) "OkForm"
    [("age", Value.int 30)] false noHooks Option.none

/-- Counterexample to C4 as stated: after a fully successful clean
(`isValid()` true), merely reading `errors["salary"]` — a name that never
failed — inserts a key into the error mapping and flips a subsequent
`isValid()` to false, because the `errors` property exposes the live
`defaultdict(list)`. -/
theorem claim_C4_cx :
    (isValid okOneForm).2.2 = true
    ∧ dictKeys (errorsGetItem (isValid okOneForm).1 "salary").1.errors = ["salary"]
    ∧ (isValid (errorsGetItem (isValid okOneForm).1 "salary").1).2.2 = false :=
  ⟨rfl, rfl, rfl⟩

/-- Claim C4 (amended): after `fullClean()` on a form whose error mapping
started empty, the error mapping has keys only for names that actually
recorded at least one failure (every present entry is non-empty), and
reading the errors view at a present key returns its list and leaves the
state — hence any later `isValid()` — unchanged.  Reading an absent key,
however, mutates the underlying `defaultdict` and falsifies a later
`isValid()` (see the counterexample). -/
theorem claim_C4 (st : FormState) (h0 : st.errors = []) :
    (∀ k, k ∈ dictKeys (fullClean st).1.errors → errorsOf (fullClean st).1 k ≠ [])
    ∧ (∀ k, k ∈ dictKeys (fullClean st).1.errors →
        errorsGetItem (fullClean st).1 k
          = ((fullClean st).1, errorsOf (fullClean st).1 k)) := by
  have hwf : errsWf (fullClean st).1.errors := by
    apply errsWf_fullClean
    rw [h0]
    intro p hp
    cases hp
  constructor
  · intro k hk
    unfold errorsOf
    cases hl : dictLookup (fullClean st).1.errors k with
    | none => exact absurd hk (fun _ => ((dictLookup_eq_none_iff _ k).1 hl) hk)
    | some l =>
      simpa using hwf (k, l) (dictLookup_mem _ k l hl)
  · intro k hk
    unfold errorsGetItem errorsOf
    cases hl : dictLookup (fullClean st).1.errors k with
    | none => exact absurd hk ((dictLookup_eq_none_iff _ k).1 hl)
    | some l => simp [hl]

/-- Witness for C4 on the two-failing-field form: `age` did fail, its entry
is non-empty, and reading it through the errors view is pure. -/
theorem claim_C4_witness :
    errorsOf (fullClean failTwoForm).1 "age" ≠ []
    ∧ errorsGetItem (fullClean failTwoForm).1 "age"
        = ((fullClean failTwoForm).1, errorsOf (fullClean failTwoForm).1 "age") :=
  ⟨(claim_C4 failTwoForm rfl).1 "age" (by decide),
   (claim_C4 failTwoForm rfl).2 "age" (by decide)⟩

/-- An unconstrained `IntField` bound to the name `x`. -/
def xField : Field :=
  mkIntField Option.none Option.none Value.none false [] false Option.none "x"

/-- A form KIND NAMED `x` that also declares a FIELD named `x`, with a
whole-form `clean` hook that fails. -/
def collideForm : FormState :=
  mkForm (subclass formBaseClass [("x", xField)]) "x" [("x", Value.int 1)] false noHooks
    (some (fun _ => .error (.validationError "whole-form failure")))

/-- Counterexample to C7 as stated: on a form whose kind is named like one of
its own declared fields (`x`), with the field passing and the whole-form
hook failing, after `fullClean()` the declared name `x` is a key of
`cleanedData` AND `errors["x"]` is non-empty — "never both" is violated. -/
theorem claim_C7_cx :
    "x" ∈ dictKeys (fullClean collideForm).1.cleanedData
    ∧ errorsOf (fullClean collideForm).1 "x" = [.validationError "whole-form failure"] :=
  ⟨by decide, rfl⟩

/-- Claim C7 (amended): with `raiseOnError` false and a non-empty record, on
a freshly constructed form (empty `cleanedData` and `errors`, declared field
names unique as dict keys are) whose kind name is not itself a declared
field name, after `fullClean()` every declared field name is in exactly one
of `cleanedData` or `errors` — never both, never neither. -/
theorem claim_C7 (st : FormState)
    (hr : st.raiseOnError = false)
    (hd : st.data ≠ [])
    (hcd0 : st.cleanedData = [])
    (herr0 : st.errors = [])
    (hname : st.kindName ∉ st.fields.map Prod.fst)
    (hnodup : (st.fields.map Prod.fst).Nodup) :
    ∀ kf ∈ st.fields,
      (kf.1 ∈ dictKeys (fullClean st).1.cleanedData
          ∧ errorsOf (fullClean st).1 kf.1 = [])
      ∨ (kf.1 ∉ dictKeys (fullClean st).1.cleanedData
          ∧ errorsOf (fullClean st).1 kf.1 ≠ []) := by
  intro kf hkf
  have hd2 : st.data.isEmpty = false := by
    simpa [List.isEmpty_iff] using hd
  have hpart := cleanFieldsLoop_partition st.fields st kf hr hnodup hkf
    (by rw [hcd0]; simp)
    (by unfold errorsOf; rw [herr0]; simp [dictLookup])
  have hshape := fullClean_shape st hd2
  have hne : kf.1 ≠ (cleanFields st).1.kindName := by
    have hkn : (cleanFields st).1.kindName = st.kindName :=
      (cleanFieldsLoop_inv st.fields st).2.2.1
    rw [hkn]
    intro hcontra
    exact hname (hcontra ▸ List.mem_map_of_mem Prod.fst hkf)
  unfold errorsOf at hpart ⊢
  rcases hshape.2 with herr | ⟨e, herr⟩
  · rw [hshape.1, herr]
    exact hpart
  · rw [hshape.1, herr, dictLookup_errAppend_ne _ _ _ e hne]
    exact hpart

/-- Witness for C7 on the two-failing-field form. -/
theorem claim_C7_witness :
    ("age" ∈ dictKeys (fullClean failTwoForm).1.cleanedData
        ∧ errorsOf (fullClean failTwoForm).1 "age" = [])
    ∨ ("age" ∉ dictKeys (fullClean failTwoForm).1.cleanedData
        ∧ errorsOf (fullClean failTwoForm).1 "age" ≠ []) :=
  claim_C7 failTwoForm rfl (by decide) rfl rfl (by decide) (by decide)
    ("age", ageField) (List.Mem.head _)

/-- Claim C8: for a form kind chain grandparent → parent → child (with the
usual uniqueness of each class body's declared names), the effective
`declared_fields` computed by the metaclass resolves every name exactly as
the spec's overlay describes: the child's own declaration wins, then the
parent's, then the grandparent's. -/
theorem claim_C8 (g p d : List (String × Field))
    (hg : (dictKeys g).Nodup) (hp : (dictKeys p).Nodup) (hd : (dictKeys d).Nodup) :
    ∀ n, dictLookup (declaredFieldsOf (subclass (subclass (subclass formBaseClass g) p) d)) n
        = overlaySpecLookup g p d n := by
  intro n
  have hmg : (dictKeys (dictUpdate ([] : List (String × Field)) g)).Nodup :=
    dictKeys_nodup_dictUpdate [] g (by simp)
  have hmg2 : (dictKeys (dictUpdate ([] : List (String × Field)) (dictUpdate [] g))).Nodup :=
    dictKeys_nodup_dictUpdate [] (dictUpdate [] g) (by simp)
  have hmp : (dictKeys (dictUpdate (dictUpdate ([] : List (String × Field))
      (dictUpdate [] g)) p)).Nodup :=
    dictKeys_nodup_dictUpdate (dictUpdate [] (dictUpdate [] g)) p hmg2
  have hred : declaredFieldsOf (subclass (subclass (subclass formBaseClass g) p) d)
      = dictUpdate (dictUpdate (dictUpdate [] (dictUpdate [] g))
          (dictUpdate (dictUpdate [] (dictUpdate [] g)) p)) d := rfl
  rw [hred]
  rw [dictLookup_dictUpdate _ d n hd]
  rw [dictLookup_dictUpdate _ (dictUpdate (dictUpdate [] (dictUpdate [] g)) p) n hmp]
  rw [dictLookup_dictUpdate _ p n hp]
  rw [dictLookup_dictUpdate [] (dictUpdate [] g) n hmg]
  rw [dictLookup_dictUpdate [] g n hg]
  unfold overlaySpecLookup
  cases dictLookup d n <;> cases dictLookup p n <;> cases dictLookup g n <;>
    simp [optOr, dictLookup]

/-- Witness for C8: a grandchild redeclaring `x` resolves `x` to its own
declaration while inheriting `name` and `age` from its ancestors. -/
theorem claim_C8_witness :
    dictLookup (declaredFieldsOf (subclass (subclass (subclass formBaseClass
        [("x", xField), ("name", nameField)]) [("age", ageField)]) [("x", ageField)])) "x"
      = overlaySpecLookup [("x", xField), ("name", nameField)] [("age", ageField)]
          [("x", ageField)] "x" :=
  claim_C8 [("x", xField), ("name", nameField)] [("age", ageField)] [("x", ageField)]
    (by decide) (by decide) (by decide) "x"

end PyValidator
